import Mathlib

/-!
# Verification of the plotsirv interaction core

Shallow embedding of `src/main.rs`: the world bootstrap (`setup`), the mode
toggle (`toggle_gamemode_on_sneak`), the two digging handlers
(`digging_creative_mode`, `digging_survival_mode`) and the placement handler
(`place_blocks`), together with the parts of the valence data model they use
(block grid, block states and properties, inventories, sessions).

Numeric conventions: machine integers are `Int`/`Nat`; an `f32` value is
modelled as `Option ℚ` (`some q` a finite value, `none` the non-finite values
NaN/±∞, on which every ordered comparison is false, as in IEEE 754); `f32`
arithmetic is modelled exactly over ℚ.
-/

namespace Plotsirv

/-- An `f32`: `some q` is a finite value, `none` stands for NaN/±∞. -/
abbrev F32 := Option ℚ

/-- Rust `rem_euclid` by 360 on `f32`: non-finite inputs give NaN. -/
def remEuclid360 (x : F32) : F32 :=
  x.map (fun q => q - 360 * (⌊q / 360⌋ : ℤ))

/-- Rust `(lo..hi).contains(&x)` on `f32`: any comparison with NaN is false. -/
def rangeContains (lo hi : ℚ) (x : F32) : Bool :=
  match x with
  | none => false
  | some q => decide (lo ≤ q ∧ q < hi)

/-- valence `GameMode`. -/
inductive GameMode where
  | Survival
  | Creative
  | Adventure
  | Spectator
deriving DecidableEq

/-- valence `Hand` (`valence_protocol::types::Hand`). -/
inductive Hand where
  | Main
  | OffHand
deriving DecidableEq

/-- valence `BlockFace` (`valence_protocol::BlockFace`). -/
inductive BlockFace where
  | Bottom
  | Top
  | North
  | South
  | West
  | East
deriving DecidableEq

/-- valence `PropValue` (the property values used by `place_blocks`). -/
inductive PropValue where
  | North
  | South
  | West
  | East
  | Top
  | Bottom
deriving DecidableEq

/-- valence `PropName` (the property names used by `place_blocks`).
`Typ` renders the source's `Type`, which is a keyword in Lean. -/
inductive PropName where
  | Facing
  | Half
  | Typ
deriving DecidableEq

/-- Modelled from the spec: the block kinds the program touches.  The spec's
data model needs an opaque block-kind identifier with a per-kind property
schema; the grid is bootstrapped with a fixed ground kind (`GRASS_BLOCK` in
the source), cleared to air, and placement resolves items to kinds.  The
replaceable placeholders named by the spec (air, liquid, short grass) and a
stair/slab-like kind with Facing/Half/Type properties are enough for every
claim. -/
inductive BlockKind where
  | Air
  | GrassBlock
  | Stone
  | Water
  | ShortGrass
  | OakStairs
  | OakSlab
deriving DecidableEq

/-- valence `BlockState`: a block kind plus its property assignments.  A
property field is `none` exactly when the kind does not define the property. -/
structure BlockState where
  kind : BlockKind
  facing : Option PropValue
  half : Option PropValue
  typ : Option PropValue
deriving DecidableEq

/-- valence `BlockState::get`: probing an undefined property yields `none`. -/
def BlockState.get (s : BlockState) (p : PropName) : Option PropValue :=
  match p with
  | PropName.Facing => s.facing
  | PropName.Half => s.half
  | PropName.Typ => s.typ

/-- valence `BlockState::set`: setting an undefined property is a no-op. -/
def BlockState.set (s : BlockState) (p : PropName) (v : PropValue) : BlockState :=
  match p with
  | PropName.Facing => if s.facing.isSome then { s with facing := some v } else s
  | PropName.Half => if s.half.isSome then { s with half := some v } else s
  | PropName.Typ => if s.typ.isSome then { s with typ := some v } else s

/-- valence `BlockState::AIR`. -/
def BlockState.AIR : BlockState := ⟨BlockKind.Air, none, none, none⟩

/-- valence `BlockState::GRASS_BLOCK`. -/
def BlockState.GRASS_BLOCK : BlockState := ⟨BlockKind.GrassBlock, none, none, none⟩

/-- Modelled from the spec: `BlockKind::to_state`, the kind's default state.
A stair-like kind defines Facing, Half and Type (the spec's end-to-end
scenario expects all three on the placed stair); a slab-like kind defines
only Type; the placeholders define none of the three. -/
def BlockKind.to_state (k : BlockKind) : BlockState :=
  match k with
  | BlockKind.Air => BlockState.AIR
  | BlockKind.GrassBlock => BlockState.GRASS_BLOCK
  | BlockKind.Stone => ⟨BlockKind.Stone, none, none, none⟩
  | BlockKind.Water => ⟨BlockKind.Water, none, none, none⟩
  | BlockKind.ShortGrass => ⟨BlockKind.ShortGrass, none, none, none⟩
  | BlockKind.OakStairs =>
      ⟨BlockKind.OakStairs, some PropValue.North, some PropValue.Bottom, some PropValue.Bottom⟩
  | BlockKind.OakSlab => ⟨BlockKind.OakSlab, none, none, some PropValue.Bottom⟩

/-- Modelled from the spec: `BlockState::is_replaceable` — "empty air,
liquid, short grass, and similar non-solid placeholders". -/
def BlockState.is_replaceable (s : BlockState) : Bool :=
  match s.kind with
  | BlockKind.Air => true
  | BlockKind.Water => true
  | BlockKind.ShortGrass => true
  | _ => false

/-- Modelled from the spec: the item kinds held in inventories; `Stick` is an
item with no corresponding block kind ("not every item is placeable"). -/
inductive ItemKind where
  | StoneItem
  | OakStairsItem
  | OakSlabItem
  | Stick
deriving DecidableEq

/-- Modelled from the spec: `ItemKind::to_block_kind`, the optional
item-to-block mapping used at step 4 of the placement handler. -/
def ItemKind.to_block_kind (i : ItemKind) : Option BlockKind :=
  match i with
  | ItemKind.StoneItem => some BlockKind.Stone
  | ItemKind.OakStairsItem => some BlockKind.OakStairs
  | ItemKind.OakSlabItem => some BlockKind.OakSlab
  | ItemKind.Stick => none

/-- valence `ItemStack`: item identifier plus count. -/
structure ItemStack where
  item : ItemKind
  count : Nat
deriving DecidableEq

/-- valence `Inventory`: a fixed sequence of optional stacks. -/
structure Inventory where
  slots : List (Option ItemStack)
deriving DecidableEq

/-- valence `Inventory::slot`. -/
def Inventory.slot (inv : Inventory) (i : Nat) : Option ItemStack :=
  inv.slots.getD i none

/-- valence `Inventory::replace_slot`. -/
def Inventory.replace_slot (inv : Inventory) (i : Nat) (s : Option ItemStack) : Inventory :=
  ⟨inv.slots.set i s⟩

/-- The session fields of a valence `Client` that the handlers read or
write: yaw, game mode and the held-slot index. -/
structure Client where
  yaw : F32
  game_mode : GameMode
  held_item_slot : Nat
deriving DecidableEq

/-- valence `BlockPos`. -/
structure BlockPos where
  x : ℤ
  y : ℤ
  z : ℤ
deriving DecidableEq

/-- valence `BlockPos::get_in_direction`: the neighbor cell in a face's direction. -/
def BlockPos.get_in_direction (p : BlockPos) (f : BlockFace) : BlockPos :=
  match f with
  | BlockFace.Bottom => ⟨p.x, p.y - 1, p.z⟩
  | BlockFace.Top => ⟨p.x, p.y + 1, p.z⟩
  | BlockFace.North => ⟨p.x, p.y, p.z - 1⟩
  | BlockFace.South => ⟨p.x, p.y, p.z + 1⟩
  | BlockFace.West => ⟨p.x - 1, p.y, p.z⟩
  | BlockFace.East => ⟨p.x + 1, p.y, p.z⟩

/-- The chunk column holding an absolute position (chunks are 16×16 columns,
coordinates floor-divided by 16). -/
def chunk_pos_of (p : BlockPos) : ℤ × ℤ :=
  (Int.fdiv p.x 16, Int.fdiv p.z 16)

/-- valence `Instance` (the block grid): the set of loaded chunk columns plus
the written cells; a cell of a loaded chunk with no written entry is air. -/
structure Instance where
  chunks : List (ℤ × ℤ)
  cells : List (BlockPos × BlockState)
deriving DecidableEq

/-- Whether the chunk column `c` is loaded. -/
def Instance.chunk_loaded (inst : Instance) (c : ℤ × ℤ) : Bool :=
  inst.chunks.contains c

/-- valence `Instance::block`: `none` when the chunk is not loaded, otherwise the
most recently written state, defaulting to air. -/
def Instance.block (inst : Instance) (p : BlockPos) : Option BlockState :=
  if inst.chunk_loaded (chunk_pos_of p) then
    some ((((inst.cells.find? (fun e => e.1 == p)).map (fun e => e.2))).getD BlockState.AIR)
  else none

/-- valence `Instance::set_block`: a no-op when the chunk is not loaded. -/
def Instance.set_block (inst : Instance) (p : BlockPos) (s : BlockState) : Instance :=
  if inst.chunk_loaded (chunk_pos_of p) then
    { inst with cells := (p, s) :: inst.cells }
  else inst

/-- valence `Instance::insert_chunk` with an empty (`Chunk::default()`) chunk. -/
def Instance.insert_chunk (inst : Instance) (c : ℤ × ℤ) : Instance :=
  { inst with chunks := c :: inst.chunks }

/-! ## The handlers -/

/-- The `SPAWN_Y` constant. -/
def SPAWN_Y : ℤ := 64

/-- The integers of the Rust range `a..b`, in order. -/
def int_range (a b : ℤ) : List ℤ :=
  (List.range (b - a).toNat).map (fun i : ℕ => a + (i : ℤ))

/-- The startup system `setup`: insert an empty chunk at every chunk coordinate in `[-5,5)²`,
then set every cell `(x, SPAWN_Y, z)` with `x, z ∈ [-25,25)` to grass
(`for z { for x { … } }`, as in the source). -/
def setup : Instance :=
  let inst0 : Instance := ⟨[], []⟩
  let inst1 := (int_range (-5) 5).foldl
    (fun acc z => (int_range (-5) 5).foldl
      (fun acc2 x => acc2.insert_chunk (x, z)) acc) inst0
  (int_range (-25) 25).foldl
    (fun acc z => (int_range (-25) 25).foldl
      (fun acc2 x => acc2.set_block ⟨x, SPAWN_Y, z⟩ BlockState.GRASS_BLOCK) acc) inst1

/-- The mode rewrite of `toggle_gamemode_on_sneak`'s `match`. -/
def toggle_mode (m : GameMode) : GameMode :=
  match m with
  | GameMode.Survival => GameMode.Creative
  | GameMode.Creative => GameMode.Survival
  | _ => GameMode.Creative

/-- The handler `toggle_gamemode_on_sneak`, per event, on a found session: only
`set_game_mode` is called. -/
def toggle_gamemode_on_sneak_step (c : Client) : Client :=
  { c with game_mode := toggle_mode c.game_mode }

/-- The `StartDigging` / `FinishDigging` event payloads. -/
structure DiggingEvent where
  client : Nat
  position : BlockPos
deriving DecidableEq

/-- The `UseItemOnBlock` event payload; `cursor_pos` keeps only the components. -/
structure UseItemOnBlock where
  client : Nat
  position : BlockPos
  face : BlockFace
  cursor_pos : ℚ × ℚ × ℚ
  hand : Hand
deriving DecidableEq

/-- The session table: client id to session and inventory (the ECS queries
`Query<&Client>` / `Query<(&Client, &mut Inventory)>`). -/
abbrev Clients := List (Nat × Client × Inventory)

/-- Look up a client id (`clients.get_component::<Client>(event.client)`). -/
def getClient (cs : Clients) (id : Nat) : Option (Client × Inventory) :=
  (cs.find? (fun e => e.1 == id)).map (fun e => e.2)

/-- Write back the (unique) looked-up entry's inventory. -/
def setClientInventory (cs : Clients) (id : Nat) (inv : Inventory) : Clients :=
  match cs with
  | [] => []
  | e :: rest =>
      if e.1 == id then (e.1, e.2.1, inv) :: rest
      else e :: setClientInventory rest id inv

/-- The handler `digging_creative_mode`, per event: clear the cell iff the session is
found and in Creative mode. -/
def digging_creative_mode_step (cs : Clients) (inst : Instance) (ev : DiggingEvent) : Instance :=
  match getClient cs ev.client with
  | none => inst
  | some (client, _) =>
      if client.game_mode = GameMode.Creative then
        inst.set_block ev.position BlockState.AIR
      else inst

/-- The handler `digging_survival_mode`, per event: clear the cell iff the session is
found and in Survival mode. -/
def digging_survival_mode_step (cs : Clients) (inst : Instance) (ev : DiggingEvent) : Instance :=
  match getClient cs ev.client with
  | none => inst
  | some (client, _) =>
      if client.game_mode = GameMode.Survival then
        inst.set_block ev.position BlockState.AIR
      else inst

/-- The facing `match` of `place_blocks` (lines 204–211): yaw normalized by
`rem_euclid(360.0)`, then bucketed; `none` is the `unreachable!()` arm. -/
def facing_of_yaw (yaw : F32) : Option PropValue :=
  let y := remEuclid360 yaw
  if !(rangeContains 45 315 y) then some PropValue.South
  else if rangeContains 45 135 y then some PropValue.West
  else if rangeContains 135 225 y then some PropValue.North
  else if rangeContains 225 315 y then some PropValue.East
  else none

/-- The property derivation of `place_blocks` (lines 213–255): start from a
default state, set Facing when defined, and derive Half/Type from the face
and the cursor's vertical component. -/
def derive_props (bs0 : BlockState) (facing : PropValue) (face : BlockFace)
    (cursor_y : ℚ) : BlockState :=
  let has_facing := (bs0.get PropName.Facing).isSome
  let has_half := (bs0.get PropName.Half).isSome
  let has_typ := (bs0.get PropName.Typ).isSome
  let bs1 := if has_facing then bs0.set PropName.Facing facing else bs0
  if has_half || has_typ then
    match face with
    | BlockFace.Bottom =>
        (bs1.set PropName.Half PropValue.Top).set PropName.Typ PropValue.Top
    | BlockFace.Top =>
        (bs1.set PropName.Half PropValue.Bottom).set PropName.Typ PropValue.Bottom
    | _ =>
        let val := if cursor_y > 0.5 then PropValue.Top else PropValue.Bottom
        (bs1.set PropName.Half val).set PropName.Typ val
  else bs1

/-- The handler `place_blocks`, per event, after the session lookup: hand gate, held
slot read, item-to-block resolution, Survival consumption, facing, target
resolution and the final write.  `none` models the panics (`unreachable!()`
on the facing and `.expect("chunk to be loaded")` on the grid read). -/
def place_block_core (client : Client) (inventory : Inventory) (inst : Instance)
    (event : UseItemOnBlock) : Option (Inventory × Instance) :=
  if event.hand ≠ Hand.Main then some (inventory, inst) else
  match inventory.slot client.held_item_slot with
  | none => some (inventory, inst)
  | some stack =>
    match stack.item.to_block_kind with
    | none => some (inventory, inst)
    | some block_kind =>
      let inventory2 :=
        if client.game_mode = GameMode.Survival then
          inventory.replace_slot client.held_item_slot
            (if stack.count > 1 then some { stack with count := stack.count - 1 } else none)
        else inventory
      match facing_of_yaw client.yaw with
      | none => none
      | some facing =>
        let block_state := block_kind.to_state
        match inst.block event.position with
        | none => none
        | some current =>
          let replace := current.is_replaceable
          let block_state2 := derive_props block_state facing event.face event.cursor_pos.2.1
          let real_pos :=
            if replace then event.position
            else event.position.get_in_direction event.face
          some (inventory2, inst.set_block real_pos block_state2)

/-- The handler `place_blocks`, per event: session lookup then the core; a dropped or
stale event leaves both the session table and the grid untouched. -/
def place_blocks_event (cs : Clients) (inst : Instance) (event : UseItemOnBlock) :
    Option (Clients × Instance) :=
  match getClient cs event.client with
  | none => some (cs, inst)
  | some (client, inventory) =>
    match place_block_core client inventory inst event with
    | none => none
    | some (inv2, inst2) => some (setClientInventory cs event.client inv2, inst2)

/-! ## Claims -/

/-- C5: a StartSneaking event on a session maps Survival to Creative,
Creative to Survival, and Adventure/Spectator to Creative, changing nothing
else in the session; toggling twice from Survival or Creative restores the
mode, and toggling once from Adventure or Spectator yields Creative. -/
theorem sneak_toggles_mode (c : Client) :
    (toggle_gamemode_on_sneak_step c).game_mode =
      (match c.game_mode with
        | GameMode.Survival => GameMode.Creative
        | GameMode.Creative => GameMode.Survival
        | GameMode.Adventure => GameMode.Creative
        | GameMode.Spectator => GameMode.Creative)
    ∧ (toggle_gamemode_on_sneak_step c).yaw = c.yaw
    ∧ (toggle_gamemode_on_sneak_step c).held_item_slot = c.held_item_slot
    ∧ (c.game_mode = GameMode.Survival ∨ c.game_mode = GameMode.Creative →
        (toggle_gamemode_on_sneak_step (toggle_gamemode_on_sneak_step c)).game_mode
          = c.game_mode)
    ∧ (c.game_mode = GameMode.Adventure ∨ c.game_mode = GameMode.Spectator →
        (toggle_gamemode_on_sneak_step c).game_mode = GameMode.Creative) := by
  obtain ⟨yaw, m, slot⟩ := c
  cases m <;> simp [toggle_gamemode_on_sneak_step, toggle_mode]

/-- Witness for C5 at a concrete Survival session. -/
theorem sneak_toggles_mode_witness :
    (toggle_gamemode_on_sneak_step
      (toggle_gamemode_on_sneak_step ⟨some 0, GameMode.Survival, 0⟩)).game_mode
        = GameMode.Survival :=
  (sneak_toggles_mode ⟨some 0, GameMode.Survival, 0⟩).2.2.2.1 (Or.inl rfl)

/-- The normalized yaw used by the facing `match`. -/
def normYaw (q : ℚ) : ℚ := q - 360 * (⌊q / 360⌋ : ℤ)

/-- On a finite yaw the facing `match` is the if-chain over the normalized
yaw (definitional unfolding). -/
theorem facing_of_yaw_some (q : ℚ) :
    facing_of_yaw (some q) =
      (if !(rangeContains 45 315 (some (normYaw q))) then some PropValue.South
       else if rangeContains 45 135 (some (normYaw q)) then some PropValue.West
       else if rangeContains 135 225 (some (normYaw q)) then some PropValue.North
       else if rangeContains 225 315 (some (normYaw q)) then some PropValue.East
       else none) := rfl

/-- Yaws normalizing outside [45, 315) face South. -/
theorem facing_south_of (q : ℚ) (h : ¬ (45 ≤ normYaw q ∧ normYaw q < 315)) :
    facing_of_yaw (some q) = some PropValue.South := by
  have c1 : (!(rangeContains 45 315 (some (normYaw q)))) = true := by
    simp only [rangeContains, Bool.not_eq_true', decide_eq_false_iff_not]
    exact h
  rw [facing_of_yaw_some, if_pos c1]

/-- Yaws normalizing into [45, 135) face West. -/
theorem facing_west_of (q : ℚ) (h : 45 ≤ normYaw q ∧ normYaw q < 135) :
    facing_of_yaw (some q) = some PropValue.West := by
  have c1 : ¬ ((!(rangeContains 45 315 (some (normYaw q)))) = true) := by
    simp only [rangeContains, Bool.not_eq_true', decide_eq_false_iff_not, not_not]
    exact ⟨h.1, by linarith [h.2]⟩
  have c2 : rangeContains 45 135 (some (normYaw q)) = true := by
    simp only [rangeContains, decide_eq_true_eq]
    exact h
  rw [facing_of_yaw_some, if_neg c1, if_pos c2]

/-- Yaws normalizing into [135, 225) face North. -/
theorem facing_north_of (q : ℚ) (h : 135 ≤ normYaw q ∧ normYaw q < 225) :
    facing_of_yaw (some q) = some PropValue.North := by
  have c1 : ¬ ((!(rangeContains 45 315 (some (normYaw q)))) = true) := by
    simp only [rangeContains, Bool.not_eq_true', decide_eq_false_iff_not, not_not]
    exact ⟨by linarith [h.1], by linarith [h.2]⟩
  have c2 : ¬ (rangeContains 45 135 (some (normYaw q)) = true) := by
    simp only [rangeContains, decide_eq_true_eq, not_and, not_lt]
    intro hy
    linarith [h.1]
  have c3 : rangeContains 135 225 (some (normYaw q)) = true := by
    simp only [rangeContains, decide_eq_true_eq]
    exact h
  rw [facing_of_yaw_some, if_neg c1, if_neg c2, if_pos c3]

/-- Yaws normalizing into [225, 315) face East. -/
theorem facing_east_of (q : ℚ) (h : 225 ≤ normYaw q ∧ normYaw q < 315) :
    facing_of_yaw (some q) = some PropValue.East := by
  have c1 : ¬ ((!(rangeContains 45 315 (some (normYaw q)))) = true) := by
    simp only [rangeContains, Bool.not_eq_true', decide_eq_false_iff_not, not_not]
    exact ⟨by linarith [h.1], h.2⟩
  have c2 : ¬ (rangeContains 45 135 (some (normYaw q)) = true) := by
    simp only [rangeContains, decide_eq_true_eq, not_and, not_lt]
    intro hy
    linarith [h.1]
  have c3 : ¬ (rangeContains 135 225 (some (normYaw q)) = true) := by
    simp only [rangeContains, decide_eq_true_eq, not_and, not_lt]
    intro hy
    linarith [h.1]
  have c4 : rangeContains 225 315 (some (normYaw q)) = true := by
    simp only [rangeContains, decide_eq_true_eq]
    exact h
  rw [facing_of_yaw_some, if_neg c1, if_neg c2, if_neg c3, if_pos c4]

/-- The facing `match` always lands in one of the four sector arms. -/
theorem facing_of_yaw_isSome (yaw : F32) : (facing_of_yaw yaw).isSome = true := by
  cases yaw with
  | none => rfl
  | some q =>
    by_cases h1 : 45 ≤ normYaw q ∧ normYaw q < 315
    · rcases lt_or_le (normYaw q) 135 with h2 | h2
      · rw [facing_west_of q ⟨h1.1, h2⟩]; rfl
      · rcases lt_or_le (normYaw q) 225 with h3 | h3
        · rw [facing_north_of q ⟨h2, h3⟩]; rfl
        · rw [facing_east_of q ⟨h3, h1.2⟩]; rfl
    · rw [facing_south_of q h1]; rfl

/-- C10: the facing computation is total — the `unreachable!()` arm is never
taken for any `f32` yaw, and a non-finite yaw (NaN after `rem_euclid`) fails
the first arm's range test and yields South. -/
theorem facing_total (yaw : F32) :
    (facing_of_yaw yaw).isSome = true ∧ facing_of_yaw none = some PropValue.South :=
  ⟨facing_of_yaw_isSome yaw, rfl⟩

/-- C3: the facing is a fixed 90°-sector bucketing of yaw normalized into
[0, 360): South outside [45, 315), West on [45, 135), North on [135, 225),
East on [225, 315); and the spec's sample yaws land as listed. -/
theorem facing_bucketing (yaw : ℚ) :
    (¬ (45 ≤ normYaw yaw ∧ normYaw yaw < 315) →
      facing_of_yaw (some yaw) = some PropValue.South)
    ∧ ((45 ≤ normYaw yaw ∧ normYaw yaw < 135) →
      facing_of_yaw (some yaw) = some PropValue.West)
    ∧ ((135 ≤ normYaw yaw ∧ normYaw yaw < 225) →
      facing_of_yaw (some yaw) = some PropValue.North)
    ∧ ((225 ≤ normYaw yaw ∧ normYaw yaw < 315) →
      facing_of_yaw (some yaw) = some PropValue.East)
    ∧ facing_of_yaw (some 0) = some PropValue.South
    ∧ facing_of_yaw (some 44.9) = some PropValue.South
    ∧ facing_of_yaw (some 45) = some PropValue.West
    ∧ facing_of_yaw (some 134.9) = some PropValue.West
    ∧ facing_of_yaw (some 135) = some PropValue.North
    ∧ facing_of_yaw (some 224.9) = some PropValue.North
    ∧ facing_of_yaw (some 225) = some PropValue.East
    ∧ facing_of_yaw (some 314.9) = some PropValue.East
    ∧ facing_of_yaw (some 315) = some PropValue.South
    ∧ facing_of_yaw (some 359) = some PropValue.South := by
  refine ⟨facing_south_of yaw, facing_west_of yaw, facing_north_of yaw,
    facing_east_of yaw, ?_, ?_, ?_, ?_, ?_, ?_, ?_, ?_, ?_, ?_⟩
  · exact facing_south_of 0 (by norm_num [normYaw])
  · exact facing_south_of 44.9 (by norm_num [normYaw])
  · exact facing_west_of 45 (by norm_num [normYaw])
  · exact facing_west_of 134.9 (by norm_num [normYaw])
  · exact facing_north_of 135 (by norm_num [normYaw])
  · exact facing_north_of 224.9 (by norm_num [normYaw])
  · exact facing_east_of 225 (by norm_num [normYaw])
  · exact facing_east_of 314.9 (by norm_num [normYaw])
  · exact facing_south_of 315 (by norm_num [normYaw])
  · exact facing_south_of 359 (by norm_num [normYaw])

/-- Witness for C3 at yaw 200, in the North sector. -/
theorem facing_bucketing_witness :
    facing_of_yaw (some 200) = some PropValue.North :=
  (facing_bucketing 200).2.2.1 (by norm_num [normYaw])

/-- C4: the written state is the block kind's default state with Facing set
to the computed facing exactly when defined; when Half or Type is defined, a
Bottom face yields Half=Top/Type=Top, a Top face yields Half=Bottom and
Type=Bottom, and a side face yields Top when the cursor's vertical component
exceeds 0.5 and Bottom otherwise — each property set only when the kind
defines it, and the kind itself unchanged. -/
theorem derive_props_spec (bs0 : BlockState) (f : PropValue) (face : BlockFace) (cy : ℚ) :
    (derive_props bs0 f face cy).kind = bs0.kind
    ∧ (derive_props bs0 f face cy).get PropName.Facing =
        (if (bs0.get PropName.Facing).isSome then some f else none)
    ∧ (face = BlockFace.Bottom →
        (derive_props bs0 f face cy).get PropName.Half =
          (if (bs0.get PropName.Half).isSome then some PropValue.Top else none)
        ∧ (derive_props bs0 f face cy).get PropName.Typ =
          (if (bs0.get PropName.Typ).isSome then some PropValue.Top else none))
    ∧ (face = BlockFace.Top →
        (derive_props bs0 f face cy).get PropName.Half =
          (if (bs0.get PropName.Half).isSome then some PropValue.Bottom else none)
        ∧ (derive_props bs0 f face cy).get PropName.Typ =
          (if (bs0.get PropName.Typ).isSome then some PropValue.Bottom else none))
    ∧ (face ≠ BlockFace.Bottom → face ≠ BlockFace.Top → cy > 0.5 →
        (derive_props bs0 f face cy).get PropName.Half =
          (if (bs0.get PropName.Half).isSome then some PropValue.Top else none)
        ∧ (derive_props bs0 f face cy).get PropName.Typ =
          (if (bs0.get PropName.Typ).isSome then some PropValue.Top else none))
    ∧ (face ≠ BlockFace.Bottom → face ≠ BlockFace.Top → ¬ (cy > 0.5) →
        (derive_props bs0 f face cy).get PropName.Half =
          (if (bs0.get PropName.Half).isSome then some PropValue.Bottom else none)
        ∧ (derive_props bs0 f face cy).get PropName.Typ =
          (if (bs0.get PropName.Typ).isSome then some PropValue.Bottom else none)) := by
  obtain ⟨k, fo, ho, tp⟩ := bs0
  cases fo <;> cases ho <;> cases tp <;> cases face <;>
    by_cases hc : cy > 0.5 <;>
    simp_all [derive_props, BlockState.get, BlockState.set]

/-- Witness for C4: a stair default state, South facing, North (side) face,
cursor height 0.7. -/
theorem derive_props_spec_witness :
    (BlockFace.North ≠ BlockFace.Bottom) ∧ (BlockFace.North ≠ BlockFace.Top)
    ∧ ((0.7 : ℚ) > 0.5)
    ∧ (derive_props BlockKind.OakStairs.to_state PropValue.South BlockFace.North 0.7).get
        PropName.Half =
        (if (BlockKind.OakStairs.to_state.get PropName.Half).isSome
          then some PropValue.Top else none) :=
  ⟨by decide, by decide, by norm_num,
    ((derive_props_spec BlockKind.OakStairs.to_state PropValue.South BlockFace.North
      0.7).2.2.2.2.1 (by decide) (by decide) (by norm_num)).1⟩

/-! ### Grid lemmas -/

/-- The operation `set_block` does not load or unload chunks. -/
theorem set_block_chunks (inst : Instance) (p : BlockPos) (s : BlockState) :
    (inst.set_block p s).chunks = inst.chunks := by
  unfold Instance.set_block
  split_ifs <;> rfl

/-- A written cell reads back the written state. -/
theorem block_set_block_self (inst : Instance) (p : BlockPos) (s : BlockState)
    (h : inst.chunk_loaded (chunk_pos_of p) = true) :
    (inst.set_block p s).block p = some s := by
  rw [Instance.set_block, if_pos h, Instance.block]
  have h2 : ({ inst with cells := (p, s) :: inst.cells } : Instance).chunk_loaded
      (chunk_pos_of p) = true := h
  rw [if_pos h2]
  simp [List.find?]

/-- The operation `set_block` leaves every other cell as it was. -/
theorem block_set_block_ne (inst : Instance) (p : BlockPos) (s : BlockState)
    (q : BlockPos) (hq : q ≠ p) :
    (inst.set_block p s).block q = inst.block q := by
  unfold Instance.set_block
  split_ifs with h
  · have hpq : (p == q) = false := beq_eq_false_iff_ne.mpr (Ne.symm hq)
    simp [Instance.block, Instance.chunk_loaded, List.find?, hpq]
  · rfl

/-- A readable cell lives in a loaded chunk. -/
theorem block_isSome_loaded (inst : Instance) (p : BlockPos) (s : BlockState)
    (h : inst.block p = some s) :
    inst.chunk_loaded (chunk_pos_of p) = true := by
  by_cases hl : inst.chunk_loaded (chunk_pos_of p) = true
  · exact hl
  · rw [Instance.block, if_neg hl] at h
    exact absurd h (by simp)

/-- The neighbor cell in a face's direction is never the cell itself. -/
theorem get_in_direction_ne (p : BlockPos) (f : BlockFace) :
    p.get_in_direction f ≠ p := by
  obtain ⟨x, y, z⟩ := p
  cases f <;> simp [BlockPos.get_in_direction, BlockPos.mk.injEq]

/-- C6: a StartDigging event with an attached session clears the cell iff
the mode is Creative; a FinishDigging event clears it iff the mode is
Survival; any other mode leaves the grid exactly as it was, with no error,
and neither handler produces anything but the grid. -/
theorem digging_mode_exclusive (cs : Clients) (inst : Instance) (ev : DiggingEvent)
    (c : Client) (inv : Inventory) (h : getClient cs ev.client = some (c, inv)) :
    (c.game_mode = GameMode.Creative →
      inst.chunk_loaded (chunk_pos_of ev.position) = true →
      (digging_creative_mode_step cs inst ev).block ev.position = some BlockState.AIR)
    ∧ (∀ q, q ≠ ev.position →
        (digging_creative_mode_step cs inst ev).block q = inst.block q)
    ∧ (c.game_mode ≠ GameMode.Creative → digging_creative_mode_step cs inst ev = inst)
    ∧ (c.game_mode = GameMode.Survival →
      inst.chunk_loaded (chunk_pos_of ev.position) = true →
      (digging_survival_mode_step cs inst ev).block ev.position = some BlockState.AIR)
    ∧ (∀ q, q ≠ ev.position →
        (digging_survival_mode_step cs inst ev).block q = inst.block q)
    ∧ (c.game_mode ≠ GameMode.Survival → digging_survival_mode_step cs inst ev = inst) := by
  refine ⟨?_, ?_, ?_, ?_, ?_, ?_⟩
  · intro hm hl
    simp only [digging_creative_mode_step, h, hm, if_true]
    exact block_set_block_self inst ev.position BlockState.AIR hl
  · intro q hq
    simp only [digging_creative_mode_step, h]
    split_ifs
    · exact block_set_block_ne inst ev.position BlockState.AIR q hq
    · rfl
  · intro hm
    simp only [digging_creative_mode_step, h, hm, if_neg, if_false]
  · intro hm hl
    simp only [digging_survival_mode_step, h, hm, if_true]
    exact block_set_block_self inst ev.position BlockState.AIR hl
  · intro q hq
    simp only [digging_survival_mode_step, h]
    split_ifs
    · exact block_set_block_ne inst ev.position BlockState.AIR q hq
    · rfl
  · intro hm
    simp only [digging_survival_mode_step, h, hm, if_neg, if_false]

/-- Witness for C6: a Creative session clearing a stone cell. -/
theorem digging_mode_exclusive_witness :
    getClient [(0, (⟨some 0, GameMode.Creative, 0⟩ : Client), (⟨[]⟩ : Inventory))] 0
        = some (⟨some 0, GameMode.Creative, 0⟩, ⟨[]⟩)
    ∧ (digging_creative_mode_step
        [(0, (⟨some 0, GameMode.Creative, 0⟩ : Client), (⟨[]⟩ : Inventory))]
        (⟨[(0, 0)], [(⟨1, 64, 1⟩, ⟨BlockKind.Stone, none, none, none⟩)]⟩ : Instance)
        ⟨0, ⟨1, 64, 1⟩⟩).block ⟨1, 64, 1⟩ = some BlockState.AIR := by
  refine ⟨by decide, ?_⟩
  exact (digging_mode_exclusive
    [(0, ⟨some 0, GameMode.Creative, 0⟩, ⟨[]⟩)]
    ⟨[(0, 0)], [(⟨1, 64, 1⟩, ⟨BlockKind.Stone, none, none, none⟩)]⟩
    ⟨0, ⟨1, 64, 1⟩⟩ ⟨some 0, GameMode.Creative, 0⟩ ⟨[]⟩ (by decide)).1 rfl (by decide)

/-! ### Inventory and session-table lemmas -/

/-- A non-empty slot index is in range. -/
theorem slot_lt_length (inv : Inventory) (i : Nat) (stack : ItemStack)
    (h : inv.slot i = some stack) : i < inv.slots.length := by
  by_contra hge
  rw [Inventory.slot, List.getD_eq_default] at h
  · exact absurd h (by simp)
  · omega

/-- The operation `replace_slot` writes the requested slot. -/
theorem slot_replace_slot_self (inv : Inventory) (i : Nat) (s : Option ItemStack)
    (stack : ItemStack) (h : inv.slot i = some stack) :
    (inv.replace_slot i s).slot i = s := by
  have hlen : i < inv.slots.length := slot_lt_length inv i stack h
  rw [Inventory.slot, Inventory.replace_slot, List.getD_eq_getD_get?, List.get?_eq_getElem?,
    List.getElem?_set_self (by simpa using hlen)]
  rfl

/-- The operation `replace_slot` leaves every other slot as it was. -/
theorem slot_replace_slot_ne (inv : Inventory) (i : Nat) (s : Option ItemStack)
    (j : Nat) (hj : j ≠ i) :
    (inv.replace_slot i s).slot j = inv.slot j := by
  rw [Inventory.slot, Inventory.replace_slot, Inventory.slot,
    List.getD_eq_getD_get?, List.getD_eq_getD_get?, List.get?_eq_getElem?,
    List.get?_eq_getElem?, List.getElem?_set_ne (Ne.symm hj)]

/-- Writing back the inventory the lookup returned is a no-op on the table. -/
theorem setClientInventory_self (cs : Clients) (id : Nat) (c : Client) (inv : Inventory)
    (h : getClient cs id = some (c, inv)) : setClientInventory cs id inv = cs := by
  induction cs with
  | nil => simp [getClient] at h
  | cons e rest ih =>
    obtain ⟨i, c2, inv2⟩ := e
    rw [setClientInventory]
    by_cases he : (i == id) = true
    · simp only [getClient, List.find?_cons, he] at h
      simp only [Option.map_some', Option.some.injEq, Prod.mk.injEq] at h
      rw [if_pos he]
      rw [h.2]
    · simp only [getClient, List.find?_cons, he] at h
      rw [if_neg he, ih h]

/-- C8: a UseItemOnBlock event referencing a missing session, using the off
hand, drawing on an empty held slot, or holding an item with no block
mapping, is a complete no-op: the session table and the grid come back
exactly as they were, with no error. -/
theorem place_drop_noop (cs : Clients) (inst : Instance) (ev : UseItemOnBlock) :
    (getClient cs ev.client = none → place_blocks_event cs inst ev = some (cs, inst))
    ∧ (∀ c inv, getClient cs ev.client = some (c, inv) →
        (ev.hand ≠ Hand.Main
          ∨ inv.slot c.held_item_slot = none
          ∨ (∃ stack, inv.slot c.held_item_slot = some stack
              ∧ stack.item.to_block_kind = none)) →
        place_blocks_event cs inst ev = some (cs, inst)) := by
  constructor
  · intro h
    simp only [place_blocks_event, h]
  · intro c inv h hcase
    have hcore : place_block_core c inv inst ev = some (inv, inst) := by
      rcases hcase with hh | hs | ⟨stack, hs, hk⟩
      · simp [place_block_core, hh]
      · by_cases hh2 : ev.hand = Hand.Main
        · simp [place_block_core, hh2, hs]
        · simp [place_block_core, hh2]
      · by_cases hh2 : ev.hand = Hand.Main
        · simp [place_block_core, hh2, hs, hk]
        · simp [place_block_core, hh2]
    simp only [place_blocks_event, h, hcore]
    rw [setClientInventory_self cs ev.client c inv h]

/-- Witness for C8: an event from an empty session table. -/
theorem place_drop_noop_witness :
    getClient ([] : Clients) 0 = none
    ∧ place_blocks_event ([] : Clients) ⟨[], []⟩
        ⟨0, ⟨0, 64, 0⟩, BlockFace.Top, (0, 0, 0), Hand.Main⟩ = some ([], ⟨[], []⟩) :=
  ⟨rfl, (place_drop_noop [] ⟨[], []⟩
    ⟨0, ⟨0, 64, 0⟩, BlockFace.Top, (0, 0, 0), Hand.Main⟩).1 rfl⟩

/-! ### Placement core characterization -/

/-- On the success path (main hand, non-empty slot, placeable item, computed
facing, loaded clicked chunk) the placement core consumes the stack in
Survival and writes the derived state at the resolved target. -/
theorem place_block_core_eq (c : Client) (inv : Inventory) (inst : Instance)
    (ev : UseItemOnBlock) (stack : ItemStack) (bk : BlockKind) (f : PropValue)
    (cur : BlockState)
    (hhand : ev.hand = Hand.Main)
    (hslot : inv.slot c.held_item_slot = some stack)
    (hbk : stack.item.to_block_kind = some bk)
    (hf : facing_of_yaw c.yaw = some f)
    (hcur : inst.block ev.position = some cur) :
    place_block_core c inv inst ev =
      some (if c.game_mode = GameMode.Survival
          then inv.replace_slot c.held_item_slot
            (if stack.count > 1 then some { stack with count := stack.count - 1 } else none)
          else inv,
        inst.set_block
          (if cur.is_replaceable then ev.position else ev.position.get_in_direction ev.face)
          (derive_props bk.to_state f ev.face ev.cursor_pos.2.1)) := by
  rw [place_block_core]
  rw [if_neg (by simp [hhand])]
  simp only [hslot, hbk, hf, hcur]

/-- A successful run of the placement core forces a computed facing and a
loaded clicked chunk. -/
theorem place_block_core_some (c : Client) (inv : Inventory) (inst : Instance)
    (ev : UseItemOnBlock) (stack : ItemStack) (bk : BlockKind)
    (inv2 : Inventory) (inst2 : Instance)
    (hhand : ev.hand = Hand.Main)
    (hslot : inv.slot c.held_item_slot = some stack)
    (hbk : stack.item.to_block_kind = some bk)
    (hrun : place_block_core c inv inst ev = some (inv2, inst2)) :
    ∃ f cur, facing_of_yaw c.yaw = some f ∧ inst.block ev.position = some cur := by
  rcases Option.isSome_iff_exists.mp (facing_of_yaw_isSome c.yaw) with ⟨f, hf⟩
  rcases hcur : inst.block ev.position with _ | cur
  · exfalso
    rw [place_block_core, if_neg (by simp [hhand])] at hrun
    simp only [hslot, hbk, hf, hcur] at hrun
    exact Option.noConfusion hrun
  · exact ⟨f, cur, hf, rfl⟩

/-- C2: a successful placement in Survival decrements the held stack in
place when its count exceeds one and clears the slot when it is one,
touching no other slot; in any other mode the inventory comes back
untouched. -/
theorem survival_consumption (c : Client) (inv : Inventory) (inst : Instance)
    (ev : UseItemOnBlock) (stack : ItemStack) (bk : BlockKind)
    (inv2 : Inventory) (inst2 : Instance)
    (hhand : ev.hand = Hand.Main)
    (hslot : inv.slot c.held_item_slot = some stack)
    (hbk : stack.item.to_block_kind = some bk)
    (hrun : place_block_core c inv inst ev = some (inv2, inst2)) :
    (c.game_mode = GameMode.Survival → 1 < stack.count →
      inv2.slot c.held_item_slot = some ⟨stack.item, stack.count - 1⟩
      ∧ ∀ j, j ≠ c.held_item_slot → inv2.slot j = inv.slot j)
    ∧ (c.game_mode = GameMode.Survival → stack.count = 1 →
      inv2.slot c.held_item_slot = none
      ∧ ∀ j, j ≠ c.held_item_slot → inv2.slot j = inv.slot j)
    ∧ (c.game_mode ≠ GameMode.Survival → inv2 = inv) := by
  obtain ⟨f, cur, hf, hcur⟩ :=
    place_block_core_some c inv inst ev stack bk inv2 inst2 hhand hslot hbk hrun
  rw [place_block_core_eq c inv inst ev stack bk f cur hhand hslot hbk hf hcur] at hrun
  simp only [Option.some.injEq, Prod.mk.injEq] at hrun
  have hinv2 : inv2 = (if c.game_mode = GameMode.Survival
      then inv.replace_slot c.held_item_slot
        (if stack.count > 1 then some { stack with count := stack.count - 1 } else none)
      else inv) := hrun.1.symm
  refine ⟨?_, ?_, ?_⟩
  · intro hm hcount
    rw [hinv2, if_pos hm, if_pos hcount]
    exact ⟨slot_replace_slot_self inv c.held_item_slot _ stack hslot,
      fun j hj => slot_replace_slot_ne inv c.held_item_slot _ j hj⟩
  · intro hm hcount
    rw [hinv2, if_pos hm, if_neg (by omega)]
    exact ⟨slot_replace_slot_self inv c.held_item_slot _ stack hslot,
      fun j hj => slot_replace_slot_ne inv c.held_item_slot _ j hj⟩
  · intro hm
    rw [hinv2, if_neg hm]

/-- Witness for C2: Survival, a 3-count stone stack in slot 0, placing on a
loaded air cell. -/
theorem survival_consumption_witness :
    ((⟨0, ⟨0, 64, 0⟩, BlockFace.Top, (0, 0, 0), Hand.Main⟩ : UseItemOnBlock).hand
        = Hand.Main)
    ∧ (Inventory.slot ⟨[some ⟨ItemKind.StoneItem, 3⟩]⟩ 0 = some ⟨ItemKind.StoneItem, 3⟩)
    ∧ (ItemKind.to_block_kind ItemKind.StoneItem = some BlockKind.Stone)
    ∧ ∃ inv2 inst2,
      place_block_core ⟨some 0, GameMode.Survival, 0⟩ ⟨[some ⟨ItemKind.StoneItem, 3⟩]⟩
          ⟨[(0, 0)], []⟩ ⟨0, ⟨0, 64, 0⟩, BlockFace.Top, (0, 0, 0), Hand.Main⟩
        = some (inv2, inst2)
      ∧ inv2.slot 0 = some ⟨ItemKind.StoneItem, 2⟩ := by
  refine ⟨rfl, rfl, rfl, ?_⟩
  have hrun := place_block_core_eq ⟨some 0, GameMode.Survival, 0⟩
    ⟨[some ⟨ItemKind.StoneItem, 3⟩]⟩ ⟨[(0, 0)], []⟩
    ⟨0, ⟨0, 64, 0⟩, BlockFace.Top, (0, 0, 0), Hand.Main⟩
    ⟨ItemKind.StoneItem, 3⟩ BlockKind.Stone PropValue.South BlockState.AIR
    rfl rfl rfl (by norm_num [normYaw, facing_south_of]) rfl
  refine ⟨_, _, hrun, ?_⟩
  exact (survival_consumption ⟨some 0, GameMode.Survival, 0⟩
    ⟨[some ⟨ItemKind.StoneItem, 3⟩]⟩ ⟨[(0, 0)], []⟩
    ⟨0, ⟨0, 64, 0⟩, BlockFace.Top, (0, 0, 0), Hand.Main⟩
    ⟨ItemKind.StoneItem, 3⟩ BlockKind.Stone _ _ rfl rfl rfl hrun).1 rfl (by decide) |>.1

/-- C1: with a placeable main-hand event on a loaded cell, a replaceable
clicked state receives the derived state in the clicked cell itself, while a
non-replaceable clicked state sends the derived state to the neighbor in the
face's direction and leaves the clicked cell exactly as it was. -/
theorem placement_target (c : Client) (inv : Inventory) (inst : Instance)
    (ev : UseItemOnBlock) (stack : ItemStack) (bk : BlockKind) (cur : BlockState)
    (hhand : ev.hand = Hand.Main)
    (hslot : inv.slot c.held_item_slot = some stack)
    (hbk : stack.item.to_block_kind = some bk)
    (hcur : inst.block ev.position = some cur) :
    (cur.is_replaceable = true →
      ∃ inv2 d, place_block_core c inv inst ev = some (inv2, inst.set_block ev.position d)
        ∧ (inst.set_block ev.position d).block ev.position = some d
        ∧ ∀ q, q ≠ ev.position → (inst.set_block ev.position d).block q = inst.block q)
    ∧ (cur.is_replaceable = false →
      ∃ inv2 d,
        place_block_core c inv inst ev
          = some (inv2, inst.set_block (ev.position.get_in_direction ev.face) d)
        ∧ (inst.set_block (ev.position.get_in_direction ev.face) d).block ev.position
            = inst.block ev.position
        ∧ (inst.chunk_loaded (chunk_pos_of (ev.position.get_in_direction ev.face)) = true →
            (inst.set_block (ev.position.get_in_direction ev.face) d).block
              (ev.position.get_in_direction ev.face) = some d)
        ∧ ∀ q, q ≠ ev.position.get_in_direction ev.face →
            (inst.set_block (ev.position.get_in_direction ev.face) d).block q
              = inst.block q) := by
  rcases Option.isSome_iff_exists.mp (facing_of_yaw_isSome c.yaw) with ⟨f, hf⟩
  have heq := place_block_core_eq c inv inst ev stack bk f cur hhand hslot hbk hf hcur
  have hload := block_isSome_loaded inst ev.position cur hcur
  constructor
  · intro hrep
    have heq2 : place_block_core c inv inst ev =
        some (if c.game_mode = GameMode.Survival
            then inv.replace_slot c.held_item_slot
              (if stack.count > 1 then some { stack with count := stack.count - 1 } else none)
            else inv,
          inst.set_block ev.position
            (derive_props bk.to_state f ev.face ev.cursor_pos.2.1)) := by
      rw [heq, if_pos hrep]
    exact ⟨_, _, heq2, block_set_block_self inst ev.position _ hload,
      fun q hq => block_set_block_ne inst ev.position _ q hq⟩
  · intro hrep
    have heq2 : place_block_core c inv inst ev =
        some (if c.game_mode = GameMode.Survival
            then inv.replace_slot c.held_item_slot
              (if stack.count > 1 then some { stack with count := stack.count - 1 } else none)
            else inv,
          inst.set_block (ev.position.get_in_direction ev.face)
            (derive_props bk.to_state f ev.face ev.cursor_pos.2.1)) := by
      rw [heq, hrep]
      simp only [Bool.false_eq_true, if_false]
    refine ⟨_, _, heq2, ?_, ?_, ?_⟩
    · exact block_set_block_ne inst (ev.position.get_in_direction ev.face) _ ev.position
        (Ne.symm (get_in_direction_ne ev.position ev.face))
    · intro hl2
      exact block_set_block_self inst (ev.position.get_in_direction ev.face) _ hl2
    · exact fun q hq => block_set_block_ne inst (ev.position.get_in_direction ev.face) _ q hq

/-- Witness for C1: a main-hand stone placement clicking a replaceable (air)
cell. -/
theorem placement_target_witness :
    ((⟨3, ⟨2, 64, 2⟩, BlockFace.Top, (0, 0, 0), Hand.Main⟩ : UseItemOnBlock).hand
        = Hand.Main)
    ∧ (Inventory.slot ⟨[some ⟨ItemKind.StoneItem, 5⟩]⟩ 0 = some ⟨ItemKind.StoneItem, 5⟩)
    ∧ (ItemKind.to_block_kind ItemKind.StoneItem = some BlockKind.Stone)
    ∧ (Instance.block ⟨[(0, 0)], []⟩ ⟨2, 64, 2⟩ = some BlockState.AIR)
    ∧ (BlockState.AIR.is_replaceable = true)
    ∧ ∃ inv2 d,
        place_block_core ⟨some 0, GameMode.Creative, 0⟩ ⟨[some ⟨ItemKind.StoneItem, 5⟩]⟩
            ⟨[(0, 0)], []⟩ ⟨3, ⟨2, 64, 2⟩, BlockFace.Top, (0, 0, 0), Hand.Main⟩
          = some (inv2, Instance.set_block ⟨[(0, 0)], []⟩ ⟨2, 64, 2⟩ d)
        ∧ (Instance.set_block ⟨[(0, 0)], []⟩ ⟨2, 64, 2⟩ d).block ⟨2, 64, 2⟩ = some d := by
  refine ⟨rfl, rfl, rfl, rfl, rfl, ?_⟩
  obtain ⟨inv2, d, h1, h2, h3⟩ := (placement_target ⟨some 0, GameMode.Creative, 0⟩
    ⟨[some ⟨ItemKind.StoneItem, 5⟩]⟩ ⟨[(0, 0)], []⟩
    ⟨3, ⟨2, 64, 2⟩, BlockFace.Top, (0, 0, 0), Hand.Main⟩
    ⟨ItemKind.StoneItem, 5⟩ BlockKind.Stone BlockState.AIR rfl rfl rfl rfl).1 rfl
  exact ⟨inv2, d, h1, h2⟩

/-- C9: the spec's end-to-end scenario — yaw 10 in Survival, three stair
items in the held slot, clicking the Top face of the replaceable cell at
(0, 64, 0): the cell receives the stair block with Facing=South,
Half=Bottom, Type=Bottom and the slot drops to two items. -/
theorem place_end_to_end :
    ∃ inst2,
      place_blocks_event
          [(7, ⟨some 10, GameMode.Survival, 0⟩, ⟨[some ⟨ItemKind.OakStairsItem, 3⟩]⟩)]
          ⟨[(0, 0)], []⟩ ⟨7, ⟨0, 64, 0⟩, BlockFace.Top, (0, 0, 0), Hand.Main⟩
        = some ([(7, ⟨some 10, GameMode.Survival, 0⟩, ⟨[some ⟨ItemKind.OakStairsItem, 2⟩]⟩)],
            inst2)
      ∧ inst2.block ⟨0, 64, 0⟩
          = some ⟨BlockKind.OakStairs, some PropValue.South, some PropValue.Bottom,
              some PropValue.Bottom⟩ := by
  have hf : facing_of_yaw (some 10) = some PropValue.South :=
    facing_south_of 10 (by norm_num [normYaw])
  have hcore := place_block_core_eq ⟨some 10, GameMode.Survival, 0⟩
    ⟨[some ⟨ItemKind.OakStairsItem, 3⟩]⟩ ⟨[(0, 0)], []⟩
    ⟨7, ⟨0, 64, 0⟩, BlockFace.Top, (0, 0, 0), Hand.Main⟩
    ⟨ItemKind.OakStairsItem, 3⟩ BlockKind.OakStairs PropValue.South BlockState.AIR
    rfl rfl rfl hf rfl
  refine ⟨⟨[(0, 0)], [(⟨0, 64, 0⟩, ⟨BlockKind.OakStairs, some PropValue.South,
    some PropValue.Bottom, some PropValue.Bottom⟩)]⟩, ?_, ?_⟩
  · simp only [place_blocks_event,
      show getClient
          [(7, (⟨some 10, GameMode.Survival, 0⟩ : Client),
            (⟨[some ⟨ItemKind.OakStairsItem, 3⟩]⟩ : Inventory))] 7
        = some (⟨some 10, GameMode.Survival, 0⟩, ⟨[some ⟨ItemKind.OakStairsItem, 3⟩]⟩)
        from rfl, hcore]
    rfl
  · rfl

/-! ### Bootstrap lemmas -/

/-- The operation `set_block` on an unloaded chunk is the identity. -/
theorem set_block_unloaded (inst : Instance) (p : BlockPos) (s : BlockState)
    (h : inst.chunk_loaded (chunk_pos_of p) = false) :
    inst.set_block p s = inst := by
  rw [Instance.set_block, if_neg (by simp [h])]

/-- Membership in the Rust range `a..b`. -/
theorem mem_int_range {a b n : ℤ} : n ∈ int_range a b ↔ a ≤ n ∧ n < b := by
  simp only [int_range, List.mem_map, List.mem_range]
  constructor
  · rintro ⟨i, hi, rfl⟩
    omega
  · intro h
    exact ⟨(n - a).toNat, by omega, by omega⟩

/-- A doubly nested loop is the fold over the row-major pair list. -/
theorem foldl_nested {γ : Type _} (g : γ → ℤ → ℤ → γ) (zs xs : List ℤ) (i : γ) :
    zs.foldl (fun acc z => xs.foldl (fun acc2 x => g acc2 x z) acc) i
      = (zs.flatMap (fun z => xs.map (fun x => (x, z)))).foldl
          (fun acc pr => g acc pr.1 pr.2) i := by
  induction zs generalizing i with
  | nil => rfl
  | cons z zs ih =>
    rw [List.foldl_cons, List.flatMap_cons, List.foldl_append, List.foldl_map]
    exact ih _

/-- The chunk coordinates the bootstrap loads, row-major. -/
def chunk_flat : List (ℤ × ℤ) :=
  (int_range (-5) 5).flatMap (fun z => (int_range (-5) 5).map (fun x => (x, z)))

/-- The (x, z) ground coordinates the bootstrap fills, row-major. -/
def ground_flat : List (ℤ × ℤ) :=
  (int_range (-25) 25).flatMap (fun z => (int_range (-25) 25).map (fun x => (x, z)))

/-- The bootstrap `setup` as the two flat folds. -/
theorem setup_eq :
    setup = ground_flat.foldl
        (fun acc pr => Instance.set_block acc ⟨pr.1, SPAWN_Y, pr.2⟩ BlockState.GRASS_BLOCK)
        (chunk_flat.foldl (fun acc pr => Instance.insert_chunk acc (pr.1, pr.2)) ⟨[], []⟩) := by
  rw [setup]
  rw [foldl_nested (fun a x z => Instance.insert_chunk a (x, z))
    (int_range (-5) 5) (int_range (-5) 5)]
  rw [foldl_nested (fun a x z => Instance.set_block a ⟨x, SPAWN_Y, z⟩ BlockState.GRASS_BLOCK)
    (int_range (-25) 25) (int_range (-25) 25)]
  rfl

/-- The insert fold stacks up exactly the listed chunks. -/
theorem foldl_insert_chunks (L : List (ℤ × ℤ)) (i : Instance) :
    ((L.foldl (fun acc pr => Instance.insert_chunk acc (pr.1, pr.2)) i).chunks)
      = L.reverse ++ i.chunks := by
  induction L generalizing i with
  | nil => simp
  | cons a L ih =>
    rw [List.foldl_cons, ih, Instance.insert_chunk]
    simp

/-- The insert fold writes no cells. -/
theorem foldl_insert_cells (L : List (ℤ × ℤ)) (i : Instance) :
    ((L.foldl (fun acc pr => Instance.insert_chunk acc (pr.1, pr.2)) i).cells) = i.cells := by
  induction L generalizing i with
  | nil => rfl
  | cons a L ih => rw [List.foldl_cons, ih, Instance.insert_chunk]

/-- The ground fold loads no chunks. -/
theorem foldl_set_chunks (L : List (ℤ × ℤ)) (i : Instance) :
    ((L.foldl
        (fun acc pr => Instance.set_block acc ⟨pr.1, SPAWN_Y, pr.2⟩ BlockState.GRASS_BLOCK)
        i).chunks) = i.chunks := by
  induction L generalizing i with
  | nil => rfl
  | cons a L ih => rw [List.foldl_cons, ih, set_block_chunks]

/-- The predicate `chunk_loaded` is invariant under `set_block`. -/
theorem chunk_loaded_set_block (i : Instance) (p : BlockPos) (s : BlockState) (c : ℤ × ℤ) :
    (i.set_block p s).chunk_loaded c = i.chunk_loaded c := by
  rw [Instance.chunk_loaded, Instance.chunk_loaded, set_block_chunks]

/-- A cell off the written coordinate list is untouched by the ground fold. -/
theorem foldl_set_not_mem (L : List (ℤ × ℤ)) (i : Instance) (p : BlockPos)
    (hmem : ¬ (p.y = SPAWN_Y ∧ (p.x, p.z) ∈ L)) :
    (L.foldl
        (fun acc pr => Instance.set_block acc ⟨pr.1, SPAWN_Y, pr.2⟩ BlockState.GRASS_BLOCK)
        i).block p = i.block p := by
  induction L generalizing i with
  | nil => rfl
  | cons a L ih =>
    rw [List.foldl_cons, ih]
    · have hpa : p ≠ ⟨a.1, SPAWN_Y, a.2⟩ := by
        intro he
        exact hmem ⟨by rw [he], by rw [he]; exact List.mem_cons_self a L⟩
      exact block_set_block_ne i ⟨a.1, SPAWN_Y, a.2⟩ BlockState.GRASS_BLOCK p hpa
    · rintro ⟨hy, hin⟩
      exact hmem ⟨hy, List.mem_cons_of_mem a hin⟩

/-- A cell on the written coordinate list in a loaded chunk reads ground. -/
theorem foldl_set_mem (L : List (ℤ × ℤ)) (i : Instance) (p : BlockPos)
    (hy : p.y = SPAWN_Y) (hin : (p.x, p.z) ∈ L)
    (hload : i.chunk_loaded (chunk_pos_of p) = true) :
    (L.foldl
        (fun acc pr => Instance.set_block acc ⟨pr.1, SPAWN_Y, pr.2⟩ BlockState.GRASS_BLOCK)
        i).block p = some BlockState.GRASS_BLOCK := by
  induction L generalizing i with
  | nil => exact absurd hin (List.not_mem_nil _)
  | cons a L ih =>
    rw [List.foldl_cons]
    by_cases hinL : (p.x, p.z) ∈ L
    · exact ih _ hinL (by rw [chunk_loaded_set_block]; exact hload)
    · have hpa : p = ⟨a.1, SPAWN_Y, a.2⟩ := by
        rcases List.mem_cons.mp hin with he | he
        · obtain ⟨px, py, pz⟩ := p
          simp only [BlockPos.mk.injEq]
          exact ⟨congrArg Prod.fst he, hy, congrArg Prod.snd he⟩
        · exact absurd he hinL
      rw [foldl_set_not_mem L _ p (fun h => hinL h.2)]
      rw [hpa] at hload ⊢
      exact block_set_block_self i ⟨a.1, SPAWN_Y, a.2⟩ BlockState.GRASS_BLOCK hload

/-- The bootstrapped chunk pairs, characterized. -/
theorem mem_chunk_flat (c : ℤ × ℤ) :
    c ∈ chunk_flat ↔ ((-5 ≤ c.1 ∧ c.1 < 5) ∧ (-5 ≤ c.2 ∧ c.2 < 5)) := by
  obtain ⟨cx, cz⟩ := c
  simp only [chunk_flat, List.mem_flatMap, List.mem_map, mem_int_range, Prod.mk.injEq]
  constructor
  · rintro ⟨z, hz, x, hx, rfl, rfl⟩
    exact ⟨hx, hz⟩
  · rintro ⟨hx, hz⟩
    exact ⟨cz, hz, cx, hx, rfl, rfl⟩

/-- The bootstrapped ground pairs, characterized. -/
theorem mem_ground_flat (c : ℤ × ℤ) :
    c ∈ ground_flat ↔ ((-25 ≤ c.1 ∧ c.1 < 25) ∧ (-25 ≤ c.2 ∧ c.2 < 25)) := by
  obtain ⟨cx, cz⟩ := c
  simp only [ground_flat, List.mem_flatMap, List.mem_map, mem_int_range, Prod.mk.injEq]
  constructor
  · rintro ⟨z, hz, x, hx, rfl, rfl⟩
    exact ⟨hx, hz⟩
  · rintro ⟨hx, hz⟩
    exact ⟨cz, hz, cx, hx, rfl, rfl⟩

/-- A grid with no written cells reads air on loaded chunks, nothing
elsewhere. -/
theorem block_of_no_cells (i : Instance) (h : i.cells = []) (p : BlockPos) :
    i.block p = if i.chunk_loaded (chunk_pos_of p) = true then some BlockState.AIR else none := by
  rw [Instance.block, h]
  split_ifs <;> rfl

/-- The chunks the bootstrap ends with. -/
theorem setup_chunks_eq : setup.chunks = chunk_flat.reverse := by
  rw [setup_eq, foldl_set_chunks, foldl_insert_chunks]
  simp

/-- Loadedness after the bootstrap, characterized. -/
theorem setup_chunk_loaded_iff (c : ℤ × ℤ) :
    setup.chunk_loaded c = true ↔ ((-5 ≤ c.1 ∧ c.1 < 5) ∧ (-5 ≤ c.2 ∧ c.2 < 5)) := by
  rw [Instance.chunk_loaded, setup_chunks_eq]
  simp [mem_chunk_flat]

/-- Ground coordinates live in bootstrapped chunks. -/
theorem ground_chunk_bounds (x z : ℤ) (hx1 : -25 ≤ x) (hx2 : x < 25)
    (hz1 : -25 ≤ z) (hz2 : z < 25) :
    (-5 ≤ x.fdiv 16 ∧ x.fdiv 16 < 5) ∧ (-5 ≤ z.fdiv 16 ∧ z.fdiv 16 < 5) := by
  rw [Int.fdiv_eq_ediv x (by norm_num), Int.fdiv_eq_ediv z (by norm_num)]
  omega

/-- The base instance of the bootstrap: the chunk-insertion fold. -/
theorem setup_base_loaded (c : ℤ × ℤ) :
    ((chunk_flat.foldl (fun acc pr => Instance.insert_chunk acc (pr.1, pr.2))
        (⟨[], []⟩ : Instance)).chunk_loaded c) = setup.chunk_loaded c := by
  rw [Instance.chunk_loaded, Instance.chunk_loaded, setup_chunks_eq, foldl_insert_chunks]
  simp

/-- C7: the bootstrap loads exactly the chunks with both axes in [-5, 5),
sets every cell (x, 64, z) with x, z in [-25, 25) to the ground block, and
leaves every other bootstrapped cell empty; being a pure value, the result
is the same on every run. -/
theorem setup_spec :
    (∀ c : ℤ × ℤ, c ∈ setup.chunks ↔ ((-5 ≤ c.1 ∧ c.1 < 5) ∧ (-5 ≤ c.2 ∧ c.2 < 5)))
    ∧ (∀ x z : ℤ, -25 ≤ x → x < 25 → -25 ≤ z → z < 25 →
        setup.block ⟨x, SPAWN_Y, z⟩ = some BlockState.GRASS_BLOCK)
    ∧ (∀ p : BlockPos, setup.chunk_loaded (chunk_pos_of p) = true →
        ¬ (p.y = SPAWN_Y ∧ -25 ≤ p.x ∧ p.x < 25 ∧ -25 ≤ p.z ∧ p.z < 25) →
        setup.block p = some BlockState.AIR) := by
  refine ⟨?_, ?_, ?_⟩
  · intro c
    rw [setup_chunks_eq, List.mem_reverse, mem_chunk_flat]
  · intro x z hx1 hx2 hz1 hz2
    have hload : setup.chunk_loaded (chunk_pos_of ⟨x, SPAWN_Y, z⟩) = true := by
      rw [setup_chunk_loaded_iff]
      exact ground_chunk_bounds x z hx1 hx2 hz1 hz2
    rw [setup_eq]
    refine foldl_set_mem ground_flat _ ⟨x, SPAWN_Y, z⟩ rfl ?_ ?_
    · rw [mem_ground_flat]
      exact ⟨⟨hx1, hx2⟩, ⟨hz1, hz2⟩⟩
    · rw [setup_base_loaded]
      exact hload
  · intro p hload hnot
    rw [setup_eq, foldl_set_not_mem]
    · rw [block_of_no_cells _ (foldl_insert_cells chunk_flat ⟨[], []⟩) p,
        if_pos (by rw [setup_base_loaded]; exact hload)]
    · rintro ⟨hy, hin⟩
      rw [mem_ground_flat] at hin
      exact hnot ⟨hy, hin.1.1, hin.1.2, hin.2.1, hin.2.2⟩

/-- Witness for C7: the origin ground cell. -/
theorem setup_spec_witness :
    ((-25 : ℤ) ≤ 0 ∧ (0 : ℤ) < 25)
    ∧ setup.block ⟨0, SPAWN_Y, 0⟩ = some BlockState.GRASS_BLOCK :=
  ⟨by decide, setup_spec.2.1 0 0 (by decide) (by decide) (by decide) (by decide)⟩

end Plotsirv
